import Mathlib

/-!
Formal model of the attempt-windowed rate limiter in src/lib/rateLimit.ts
of the Bloggly backend.

The durable store (the rate_limit_logs table) is modelled as a list of
records in insertion order; timestamps are integers in milliseconds.  Each
store operation may raise, which is modelled by a fault schedule indexed by
the position of the operation in the function body; a raised error carries the
store state reached so far, mirroring the residual effects of a failed call
sequence.  The config lookup happens before the try block, so an unknown
type is modelled as a propagated error (Option.none result).
-/

/-- A row of the rate_limit_logs table. -/
structure RLRecord where
  identifier : String
  attempt_count : Nat
  blocked : Bool
  created_at : Int
  deriving DecidableEq

/-- The value returned by the limiter. -/
structure RateLimitResult where
  allowed : Bool
  remaining : Int
  resetTime : Int
  deriving DecidableEq

/-- Per-type configuration. -/
structure RateLimitConfig where
  windowMs : Int
  maxAttempts : Nat
  blockDurationMs : Int
  deriving DecidableEq

/-- The fixed config table: auth, password_reset, api_general. -/
def rateLimitConfigs : String → Option RateLimitConfig
  | "auth" => some ⟨15 * 60 * 1000, 5, 60 * 60 * 1000⟩
  | "password_reset" => some ⟨60 * 60 * 1000, 3, 24 * 60 * 60 * 1000⟩
  | "api_general" => some ⟨60 * 1000, 100, 5 * 60 * 1000⟩
  | _ => none

/-- Math.ceil of an integer division by a positive divisor, as the source
computes Math.ceil(a / 1000) on exact millisecond arithmetic. -/
def iceilDiv (a b : Int) : Int := -(-a / b)

/-- The rows kept by the garbage-collection delete: the source deletes the
rows with created_at strictly before now - blockDurationMs, for every
identifier, so a row is kept iff now - blockDurationMs <= created_at. -/
def gcKeep (now bd : Int) (r : RLRecord) : Bool := decide (now - bd ≤ r.created_at)

/-- The garbage-collection delete performed at the top of every call. -/
def gcDelete (now bd : Int) (store : List RLRecord) : List RLRecord :=
  store.filter (gcKeep now bd)

/-- Row filter of the block-check select: identifier = key, blocked = true,
created_at >= now - blockDurationMs. -/
def isBlockMatch (key : String) (now bd : Int) (r : RLRecord) : Bool :=
  r.identifier == key && r.blocked && decide (now - bd ≤ r.created_at)

/-- The created_at of the row the block-check select returns: the select
orders by created_at descending with limit 1, so it yields the maximal
created_at among matching rows, or none when no row matches. -/
def findBlockTime (key : String) (now bd : Int) (store : List RLRecord) : Option Int :=
  (store.filter (isBlockMatch key now bd)).foldl
    (fun acc r =>
      match acc with
      | none => some r.created_at
      | some m => some (max m r.created_at))
    none

/-- Row filter of the count select: identifier = key, blocked = false,
created_at >= windowStart. -/
def isCountMatch (key : String) (windowStart : Int) (r : RLRecord) : Bool :=
  r.identifier == key && !r.blocked && decide (windowStart ≤ r.created_at)

/-- The count select: how many non-blocking rows for key lie inside the
window. -/
def countRecent (key : String) (windowStart : Int) (store : List RLRecord) : Nat :=
  (store.filter (isCountMatch key windowStart)).length

/-- The delete issued on a successful attempt: removes every row with
identifier = key and blocked = false. -/
def deleteNonBlocked (key : String) (store : List RLRecord) : List RLRecord :=
  store.filter (fun r => !(r.identifier == key && !r.blocked))

/-- Fault schedule under which every store operation succeeds. -/
def noFaults : Nat → Bool := fun _ => false

/-- Fault schedule under which every store operation raises. -/
def allFaults : Nat → Bool := fun _ => true

/-- The steps of the try block after the garbage-collection delete.  Fault
indices: 1 block-check select, 2 count select, 3 failed-attempt insert,
4 block insert, 5 reset-on-success delete.  A fault aborts with the store
state reached so far. -/
def afterGC (cfg : RateLimitConfig) (key : String) (success : Bool) (now : Int)
    (faults : Nat → Bool) (store1 : List RLRecord) :
    Except (List RLRecord) (RateLimitResult × List RLRecord) :=
  if faults 1 then Except.error store1 else
  match findBlockTime key now cfg.blockDurationMs store1 with
  | some t =>
      let resetTime := iceilDiv (t + cfg.blockDurationMs - now) 1000
      Except.ok (⟨false, 0, max resetTime 0⟩, store1)
  | none =>
      if faults 2 then Except.error store1 else
      let currentCount := countRecent key (now - cfg.windowMs) store1
      if success then
        if faults 5 then Except.error store1 else
        Except.ok (⟨true, max 0 ((cfg.maxAttempts : Int) - currentCount),
                    iceilDiv cfg.windowMs 1000⟩,
                   deleteNonBlocked key store1)
      else
        if faults 3 then Except.error store1 else
        let store2 := store1 ++ [⟨key, currentCount + 1, false, now⟩]
        if cfg.maxAttempts ≤ currentCount + 1 then
          if faults 4 then Except.error store2 else
          Except.ok (⟨false, 0, iceilDiv cfg.blockDurationMs 1000⟩,
                     store2 ++ [⟨key, currentCount + 1, true, now⟩])
        else
          Except.ok (⟨true, max 0 ((cfg.maxAttempts : Int) - (currentCount + 1)),
                      iceilDiv cfg.windowMs 1000⟩,
                     store2)

/-- The whole try block of the core rateLimit function; fault index 0 is
the garbage-collection delete. -/
def tryBody (cfg : RateLimitConfig) (key : String) (success : Bool) (now : Int)
    (faults : Nat → Bool) (store : List RLRecord) :
    Except (List RLRecord) (RateLimitResult × List RLRecord) :=
  if faults 0 then Except.error store
  else afterGC cfg key success now faults (gcDelete now cfg.blockDurationMs store)

/-- The core rateLimit function.  Returns none when the config lookup
yields undefined: config.windowMs is dereferenced before the try block, so
the TypeError propagates to the caller.  Otherwise some (result, newStore);
an error raised inside the try block is caught and converted to the
fail-open decision, with the store as the fault left it. -/
def rateLimit (identifier : String) (success : Bool) (type : String) (now : Int)
    (faults : Nat → Bool) (store : List RLRecord) :
    Option (RateLimitResult × List RLRecord) :=
  match rateLimitConfigs type with
  | none => none
  | some cfg =>
      let key := type ++ "_" ++ identifier
      match tryBody cfg key success now faults store with
      | Except.ok r => some r
      | Except.error s =>
          some (⟨true, (cfg.maxAttempts : Int), iceilDiv cfg.windowMs 1000⟩, s)

/-- Wrapper rateLimitAuth: success defaults to true, type defaults to
"auth", caller may override both.  The model parameters (now, fault
schedule, store) come first so the two source defaults are trailing
optional parameters, as in the source. -/
def rateLimitAuth (now : Int) (faults : Nat → Bool) (store : List RLRecord)
    (identifier : String) (success : optParam Bool true)
    (type : optParam String "auth") : Option (RateLimitResult × List RLRecord) :=
  rateLimit identifier success type now faults store

/-- Wrapper rateLimitAPI: success defaults to true, type is always
api_general. -/
def rateLimitAPI (now : Int) (faults : Nat → Bool) (store : List RLRecord)
    (identifier : String) (success : optParam Bool true) :
    Option (RateLimitResult × List RLRecord) :=
  rateLimit identifier success "api_general" now faults store

/-- Run a sequence of calls for one identifier and type, threading the
store; each call is given as (success, now).  Store operations do not
fault; none as soon as a call propagates an error. -/
def runCalls (identifier : String) (type : String) (calls : List (Bool × Int))
    (store : List RLRecord) : Option (List RateLimitResult × List RLRecord) :=
  match calls with
  | [] => some ([], store)
  | c :: rest =>
      match rateLimit identifier c.1 type c.2 noFaults store with
      | none => none
      | some rs =>
          match runCalls identifier type rest rs.2 with
          | none => none
          | some out => some (rs.1 :: out.1, out.2)

/-- The non-blocking records a run of consecutive failing calls leaves for
a key: counts c+1, c+2, ... at the given times. -/
def failRecs (key : String) (c : Nat) (ts : List Int) : List RLRecord :=
  match ts with
  | [] => []
  | t :: ts => ⟨key, c + 1, false, t⟩ :: failRecs key (c + 1) ts

/-- The results of a run of consecutive failing calls starting from
current count c: while the new count stays below maxAttempts the call is
allowed with remaining = maxAttempts - newCount; the call reaching
maxAttempts is denied with resetTime = ceil(blockDurationMs / 1000). -/
def failResults (cfg : RateLimitConfig) (c : Nat) (m : Nat) : List RateLimitResult :=
  match m with
  | 0 => []
  | Nat.succ m =>
      (if c + 1 < cfg.maxAttempts then
        ⟨true, (cfg.maxAttempts : Int) - (c + 1), iceilDiv cfg.windowMs 1000⟩
      else
        ⟨false, 0, iceilDiv cfg.blockDurationMs 1000⟩) :: failResults cfg (c + 1) m

/-- Identifier strings used in concrete witnesses. -/
def tAuth : String := "auth"

def tApiGeneral : String := "api_general"

def tBogus : String := "no_such_type"

def uid : String := "user1"

example : rateLimit uid false tAuth 0 noFaults [] =
    some (⟨true, 4, 900⟩, [⟨tAuth ++ "_" ++ uid, 1, false, 0⟩]) := by decide

example : rateLimit uid true tBogus 0 noFaults [] = none := by decide

lemma iceilDiv_nonneg (a b : Int) (ha : 0 ≤ a) (hb : 0 < b) : 0 ≤ iceilDiv a b := by
  unfold iceilDiv
  have h1 : -a / b ≤ 0 / b := Int.ediv_le_ediv hb (by omega)
  rw [Int.zero_ediv] at h1
  omega

lemma iceilDiv_mono (a c b : Int) (hb : 0 < b) (h : a ≤ c) : iceilDiv a b ≤ iceilDiv c b := by
  unfold iceilDiv
  have h1 : -c / b ≤ -a / b := Int.ediv_le_ediv hb (by omega)
  omega

lemma config_cases (type : String) (cfg : RateLimitConfig)
    (hcfg : rateLimitConfigs type = some cfg) :
    cfg = ⟨900000, 5, 3600000⟩ ∨ cfg = ⟨3600000, 3, 86400000⟩ ∨
      cfg = ⟨60000, 100, 300000⟩ := by
  unfold rateLimitConfigs at hcfg
  split at hcfg
  · injection hcfg with h
    left
    rw [← h]
    decide
  · injection hcfg with h
    right
    left
    rw [← h]
    decide
  · injection hcfg with h
    right
    right
    rw [← h]
    decide
  · exact absurd hcfg (by simp)

lemma config_bounds (type : String) (cfg : RateLimitConfig)
    (hcfg : rateLimitConfigs type = some cfg) :
    0 < cfg.windowMs ∧ 0 < cfg.blockDurationMs ∧
      cfg.windowMs ≤ cfg.blockDurationMs ∧ 3 ≤ cfg.maxAttempts := by
  rcases config_cases type cfg hcfg with h | h | h <;> subst h <;> decide

lemma foldl_maxRec_some (l : List RLRecord) (m : Int) :
    l.foldl (fun acc r =>
      match acc with
      | none => some r.created_at
      | some m => some (max m r.created_at)) (some m) =
      some (l.foldl (fun a r => max a r.created_at) m) := by
  induction l generalizing m with
  | nil => rfl
  | cons x xs ih =>
      simp only [List.foldl_cons]
      exact ih (max m x.created_at)

lemma foldl_max_init_le (l : List RLRecord) (m : Int) :
    m ≤ l.foldl (fun a r => max a r.created_at) m := by
  induction l generalizing m with
  | nil => exact le_refl m
  | cons x xs ih =>
      simp only [List.foldl_cons]
      exact le_trans (le_max_left m x.created_at) (ih _)

lemma foldl_max_le (l : List RLRecord) (m T : Int) (hm : m ≤ T)
    (h : ∀ r ∈ l, r.created_at ≤ T) :
    l.foldl (fun a r => max a r.created_at) m ≤ T := by
  induction l generalizing m with
  | nil => exact hm
  | cons x xs ih =>
      simp only [List.foldl_cons]
      exact ih _ (max_le hm (h x (by simp))) (fun r hr => h r (by simp [hr]))

lemma foldl_max_mem_le (l : List RLRecord) (r : RLRecord) (hr : r ∈ l) (m : Int) :
    r.created_at ≤ l.foldl (fun a x => max a x.created_at) m := by
  induction l generalizing m with
  | nil => cases hr
  | cons x xs ih =>
      simp only [List.foldl_cons]
      rcases List.mem_cons.mp hr with h | h
      · subst h
        exact le_trans (le_max_right m r.created_at) (foldl_max_init_le xs _)
      · exact ih h _

lemma findBlockTime_eq_none (key : String) (now bd : Int) (store : List RLRecord)
    (h : ∀ r ∈ store, isBlockMatch key now bd r = false) :
    findBlockTime key now bd store = none := by
  unfold findBlockTime
  rw [List.filter_eq_nil_iff.mpr (fun r hr => by simp [h r hr])]
  rfl

lemma findBlockTime_eq_some (key : String) (now bd : Int) (store : List RLRecord)
    (T : Int)
    (hmem : ∃ r ∈ store, isBlockMatch key now bd r = true ∧ r.created_at = T)
    (hub : ∀ r ∈ store, isBlockMatch key now bd r = true → r.created_at ≤ T) :
    findBlockTime key now bd store = some T := by
  unfold findBlockTime
  obtain ⟨r0, hr0s, hr0m, hr0T⟩ := hmem
  have hr0f : r0 ∈ store.filter (isBlockMatch key now bd) :=
    List.mem_filter.mpr ⟨hr0s, hr0m⟩
  cases hf : store.filter (isBlockMatch key now bd) with
  | nil =>
      rw [hf] at hr0f
      cases hr0f
  | cons x xs =>
      have hsub : ∀ r ∈ x :: xs, r ∈ store ∧ isBlockMatch key now bd r = true := by
        intro r hr
        rw [← hf] at hr
        exact ⟨(List.mem_filter.mp hr).1, (List.mem_filter.mp hr).2⟩
      rw [hf] at hr0f
      simp only [List.foldl_cons]
      rw [foldl_maxRec_some]
      congr 1
      apply le_antisymm
      · refine foldl_max_le xs x.created_at T ?_ ?_
        · exact hub x (hsub x (by simp)).1 (hsub x (by simp)).2
        · intro r hr
          exact hub r (hsub r (by simp [hr])).1 (hsub r (by simp [hr])).2
      · rw [← hr0T]
        rcases List.mem_cons.mp hr0f with h | h
        · subst h
          exact foldl_max_init_le xs _
        · exact foldl_max_mem_le xs r0 h _

lemma isBlockMatch_gcKeep (key : String) (now bd : Int) (r : RLRecord)
    (h : isBlockMatch key now bd r = true) : gcKeep now bd r = true := by
  unfold isBlockMatch at h
  unfold gcKeep
  simp only [Bool.and_eq_true, decide_eq_true_eq] at h
  exact decide_eq_true h.2

lemma findBlockTime_gcDelete (key : String) (now bd : Int) (store : List RLRecord) :
    findBlockTime key now bd (gcDelete now bd store) = findBlockTime key now bd store := by
  unfold findBlockTime gcDelete
  rw [List.filter_filter]
  congr 1
  apply List.filter_congr
  intro r hr
  cases hm : isBlockMatch key now bd r
  · simp
  · simp [isBlockMatch_gcKeep key now bd r hm]

lemma gcDelete_eq_self (now bd : Int) (store : List RLRecord)
    (h : ∀ r ∈ store, now - bd ≤ r.created_at) : gcDelete now bd store = store := by
  unfold gcDelete
  apply List.filter_eq_self.mpr
  intro r hr
  exact decide_eq_true (h r hr)

lemma deleteNonBlocked_eq_self (key : String) (store : List RLRecord)
    (h : ∀ r ∈ store, r.identifier ≠ key) : deleteNonBlocked key store = store := by
  unfold deleteNonBlocked
  apply List.filter_eq_self.mpr
  intro r hr
  simp [h r hr]

lemma mem_gcDelete (now bd : Int) (store : List RLRecord) (r : RLRecord) :
    r ∈ gcDelete now bd store ↔ r ∈ store ∧ now - bd ≤ r.created_at := by
  unfold gcDelete gcKeep
  simp [List.mem_filter]

lemma rateLimit_blocked_eq (type : String) (cfg : RateLimitConfig)
    (hcfg : rateLimitConfigs type = some cfg) (ident : String) (success : Bool)
    (now T : Int) (store : List RLRecord)
    (hmem : ∃ r ∈ store,
      isBlockMatch (type ++ "_" ++ ident) now cfg.blockDurationMs r = true ∧
        r.created_at = T)
    (hub : ∀ r ∈ store,
      isBlockMatch (type ++ "_" ++ ident) now cfg.blockDurationMs r = true →
        r.created_at ≤ T) :
    rateLimit ident success type now noFaults store =
      some (⟨false, 0, max (iceilDiv (T + cfg.blockDurationMs - now) 1000) 0⟩,
            gcDelete now cfg.blockDurationMs store) := by
  have hsome : findBlockTime (type ++ "_" ++ ident) now cfg.blockDurationMs
      (gcDelete now cfg.blockDurationMs store) = some T := by
    rw [findBlockTime_gcDelete]
    exact findBlockTime_eq_some _ _ _ _ T hmem hub
  unfold rateLimit tryBody afterGC
  rw [hcfg]
  simp [noFaults, hsome]

lemma rateLimit_success_eq (type : String) (cfg : RateLimitConfig)
    (hcfg : rateLimitConfigs type = some cfg) (ident : String) (now : Int)
    (store : List RLRecord)
    (hnb : ∀ r ∈ store,
      isBlockMatch (type ++ "_" ++ ident) now cfg.blockDurationMs r = false) :
    rateLimit ident true type now noFaults store =
      some (⟨true,
             max 0 ((cfg.maxAttempts : Int) -
               countRecent (type ++ "_" ++ ident) (now - cfg.windowMs)
                 (gcDelete now cfg.blockDurationMs store)),
             iceilDiv cfg.windowMs 1000⟩,
            deleteNonBlocked (type ++ "_" ++ ident)
              (gcDelete now cfg.blockDurationMs store)) := by
  have hnone : findBlockTime (type ++ "_" ++ ident) now cfg.blockDurationMs
      (gcDelete now cfg.blockDurationMs store) = none := by
    rw [findBlockTime_gcDelete]
    exact findBlockTime_eq_none _ _ _ _ hnb
  unfold rateLimit tryBody afterGC
  rw [hcfg]
  simp [noFaults, hnone]

lemma rateLimit_fail_eq (type : String) (cfg : RateLimitConfig)
    (hcfg : rateLimitConfigs type = some cfg) (ident : String) (now : Int)
    (store : List RLRecord) (c : Nat)
    (hgc : gcDelete now cfg.blockDurationMs store = store)
    (hnb : ∀ r ∈ store,
      isBlockMatch (type ++ "_" ++ ident) now cfg.blockDurationMs r = false)
    (hc : countRecent (type ++ "_" ++ ident) (now - cfg.windowMs) store = c) :
    rateLimit ident false type now noFaults store =
      (if cfg.maxAttempts ≤ c + 1 then
        some (⟨false, 0, iceilDiv cfg.blockDurationMs 1000⟩,
          store ++ [⟨type ++ "_" ++ ident, c + 1, false, now⟩,
                    ⟨type ++ "_" ++ ident, c + 1, true, now⟩])
      else
        some (⟨true, max 0 ((cfg.maxAttempts : Int) - (c + 1)),
                iceilDiv cfg.windowMs 1000⟩,
          store ++ [⟨type ++ "_" ++ ident, c + 1, false, now⟩])) := by
  have hnone : findBlockTime (type ++ "_" ++ ident) now cfg.blockDurationMs
      (gcDelete now cfg.blockDurationMs store) = none := by
    rw [findBlockTime_gcDelete]
    exact findBlockTime_eq_none _ _ _ _ hnb
  rw [hgc] at hnone
  unfold rateLimit tryBody afterGC
  rw [hcfg]
  by_cases hth : cfg.maxAttempts ≤ c + 1 <;>
    simp [noFaults, hnone, hgc, hc, hth]

lemma runCalls_cons_eq (ident type : String) (s : Bool) (n : Int)
    (calls : List (Bool × Int)) (store store1 store2 : List RLRecord)
    (res : RateLimitResult) (results : List RateLimitResult)
    (h1 : rateLimit ident s type n noFaults store = some (res, store1))
    (h2 : runCalls ident type calls store1 = some (results, store2)) :
    runCalls ident type ((s, n) :: calls) store = some (res :: results, store2) := by
  unfold runCalls
  rw [h1]
  simp only [h2]

lemma failRecs_append_one (key : String) (t : Int) :
    ∀ (ts : List Int) (c : Nat),
      failRecs key c (ts ++ [t]) =
        failRecs key c ts ++ [⟨key, c + ts.length + 1, false, t⟩] := by
  intro ts
  induction ts with
  | nil => intro c; rfl
  | cons x xs ih =>
      intro c
      have h : c + 1 + xs.length + 1 = c + (xs.length + 1) + 1 := by omega
      rw [List.cons_append]
      show (⟨key, c + 1, false, x⟩ : RLRecord) :: failRecs key (c + 1) (xs ++ [t]) =
        ⟨key, c + 1, false, x⟩ :: (failRecs key (c + 1) xs ++
          [⟨key, c + (x :: xs).length + 1, false, t⟩])
      rw [ih (c + 1)]
      simp only [List.length_cons]
      rw [h]

lemma mem_failRecs (key : String) :
    ∀ (ts : List Int) (c : Nat) (r : RLRecord), r ∈ failRecs key c ts →
      r.identifier = key ∧ r.blocked = false ∧ r.created_at ∈ ts := by
  intro ts
  induction ts with
  | nil => intro c r hr; cases hr
  | cons x xs ih =>
      intro c r hr
      simp only [failRecs] at hr
      rcases List.mem_cons.mp hr with h | h
      · subst h
        exact ⟨rfl, rfl, by simp⟩
      · obtain ⟨h1, h2, h3⟩ := ih (c + 1) r h
        exact ⟨h1, h2, by simp [h3]⟩

lemma countRecent_failRecs (key : String) (w : Int) :
    ∀ (ts : List Int) (c : Nat), (∀ t ∈ ts, w ≤ t) →
      countRecent key w (failRecs key c ts) = ts.length := by
  intro ts
  induction ts with
  | nil => intro c h; rfl
  | cons x xs ih =>
      intro c h
      have hx : isCountMatch key w ⟨key, c + 1, false, x⟩ = true := by
        unfold isCountMatch
        simp [h x (by simp)]
      have hxs := ih (c + 1) (fun u hu => h u (by simp [hu]))
      unfold countRecent at hxs ⊢
      simp only [failRecs, List.filter_cons, hx, if_true, List.length_cons, hxs]

lemma runCalls_failSeq (type : String) (cfg : RateLimitConfig)
    (hcfg : rateLimitConfigs type = some cfg) (ident : String) :
    ∀ (rest : List Int), ∀ (done : List Int), rest ≠ [] →
      done.length + rest.length = cfg.maxAttempts →
      (done ++ rest).Pairwise (fun a b => a ≤ b ∧ b - a ≤ cfg.windowMs) →
      runCalls ident type (rest.map (fun t => (false, t)))
          (failRecs (type ++ "_" ++ ident) 0 done) =
        some (failResults cfg done.length rest.length,
          failRecs (type ++ "_" ++ ident) 0 (done ++ rest) ++
            [⟨type ++ "_" ++ ident, cfg.maxAttempts, true, rest.getLastD 0⟩]) := by
  obtain ⟨hw, hbd, hwb, hN⟩ := config_bounds type cfg hcfg
  intro rest
  induction rest with
  | nil => intro done hne _ _; exact absurd rfl hne
  | cons t rest' ih =>
      intro done hne hlen hpw
      have hRdt : ∀ d ∈ done, d ≤ t ∧ t - d ≤ cfg.windowMs := by
        have h3 := (List.pairwise_append.mp hpw).2.2
        intro d hd
        exact h3 d hd t (by simp)
      have hgc : gcDelete t cfg.blockDurationMs
          (failRecs (type ++ "_" ++ ident) 0 done) =
          failRecs (type ++ "_" ++ ident) 0 done := by
        apply gcDelete_eq_self
        intro r hr
        obtain ⟨_, _, h3⟩ := mem_failRecs (type ++ "_" ++ ident) done 0 r hr
        obtain ⟨hd1, hd2⟩ := hRdt r.created_at h3
        omega
      have hnb : ∀ r ∈ failRecs (type ++ "_" ++ ident) 0 done,
          isBlockMatch (type ++ "_" ++ ident) t cfg.blockDurationMs r = false := by
        intro r hr
        obtain ⟨_, h2, _⟩ := mem_failRecs (type ++ "_" ++ ident) done 0 r hr
        unfold isBlockMatch
        simp [h2]
      have hc : countRecent (type ++ "_" ++ ident) (t - cfg.windowMs)
          (failRecs (type ++ "_" ++ ident) 0 done) = done.length := by
        apply countRecent_failRecs
        intro d hd
        obtain ⟨hd1, hd2⟩ := hRdt d hd
        omega
      have hcall := rateLimit_fail_eq type cfg hcfg ident t
        (failRecs (type ++ "_" ++ ident) 0 done) done.length hgc hnb hc
      cases rest' with
      | nil =>
          have hNeq : cfg.maxAttempts = done.length + 1 := by
            simp at hlen
            omega
          have hth : cfg.maxAttempts ≤ done.length + 1 := by omega
          rw [if_pos hth] at hcall
          have hrun := runCalls_cons_eq ident type false t [] _ _ _ _ [] hcall rfl
          simp only [List.map_cons, List.map_nil, hrun]
          rw [failRecs_append_one]
          simp [failResults, hNeq, List.append_assoc]
      | cons u rest'' =>
          have hlt : done.length + 1 < cfg.maxAttempts := by
            simp at hlen
            omega
          have hth : ¬ (cfg.maxAttempts ≤ done.length + 1) := by omega
          rw [if_neg hth] at hcall
          have hmax : max 0 ((cfg.maxAttempts : Int) - (done.length + 1)) =
              (cfg.maxAttempts : Int) - (done.length + 1) := by
            apply max_eq_right
            omega
          rw [hmax] at hcall
          have hihpw : ((done ++ [t]) ++ (u :: rest'')).Pairwise
              (fun a b => a ≤ b ∧ b - a ≤ cfg.windowMs) := by
            rw [List.append_assoc, List.singleton_append]
            exact hpw
          have hihlen : (done ++ [t]).length + (u :: rest'').length = cfg.maxAttempts := by
            simp at hlen ⊢
            omega
          have hrec := ih (done ++ [t]) (by simp) hihlen hihpw
          rw [failRecs_append_one] at hrec
          simp only [Nat.zero_add] at hrec
          have hrun := runCalls_cons_eq ident type false t
            ((u :: rest'').map (fun x => (false, x))) _ _ _ _ _ hcall hrec
          simp only [List.map_cons] at hrun ⊢
          rw [hrun]
          rw [List.append_assoc, List.singleton_append]
          simp [failResults, hlt, List.getLastD_cons]

/-- C1: for a registered type with max_attempts = N and a key with no
stored records, a run of N consecutive failing calls inside the window
(no intervening success; garbage collection cannot interfere because every
registered window is at most its block duration): calls 1..N-1 are allowed
with remaining = N - k, strictly decreasing, and the N-th call inserts a
blocked = true record for the key and is denied with remaining = 0 and
reset_time = ceil(block_duration_ms / 1000); failResults and failRecs spell
out this closed form call by call. -/
theorem consecutiveFailures_block (type : String) (cfg : RateLimitConfig)
    (hcfg : rateLimitConfigs type = some cfg) (ident : String) (ts : List Int)
    (hlen : ts.length = cfg.maxAttempts)
    (hpw : ts.Pairwise (fun a b => a ≤ b ∧ b - a ≤ cfg.windowMs)) :
    runCalls ident type (ts.map (fun t => (false, t))) [] =
      some (failResults cfg 0 cfg.maxAttempts,
        failRecs (type ++ "_" ++ ident) 0 ts ++
          [⟨type ++ "_" ++ ident, cfg.maxAttempts, true, ts.getLastD 0⟩]) := by
  have hne : ts ≠ [] := by
    intro h
    obtain ⟨_, _, _, hN⟩ := config_bounds type cfg hcfg
    rw [h] at hlen
    simp at hlen
    omega
  have hmain := runCalls_failSeq type cfg hcfg ident ts [] hne
    (by simpa using hlen) (by simpa using hpw)
  simpa [failRecs, hlen] using hmain

/-- Witness for C1: five failing auth calls at 0, 100000, 200000, 300000,
400000 ms. -/
theorem consecutiveFailures_block_witness :
    runCalls uid tAuth
        (([0, 100000, 200000, 300000, 400000] : List Int).map (fun t => (false, t))) [] =
      some (failResults ⟨900000, 5, 3600000⟩ 0 5,
        failRecs (tAuth ++ "_" ++ uid) 0 [0, 100000, 200000, 300000, 400000] ++
          [⟨tAuth ++ "_" ++ uid, 5, true, 400000⟩]) :=
  consecutiveFailures_block tAuth ⟨900000, 5, 3600000⟩ (by decide) uid
    [0, 100000, 200000, 300000, 400000] (by decide) (by decide)

/-- C2: for a registered type, an error raised by any store operation
inside the try block is caught and converted to the fail-open result
(allowed = true, remaining = max_attempts, reset_time =
ceil(window_ms / 1000)) and the call never propagates an error. -/
theorem storeFault_failOpen (type : String) (cfg : RateLimitConfig)
    (hcfg : rateLimitConfigs type = some cfg) (ident : String) (success : Bool)
    (now : Int) (faults : Nat → Bool) (store s : List RLRecord)
    (herr : tryBody cfg (type ++ "_" ++ ident) success now faults store =
      Except.error s) :
    rateLimit ident success type now faults store =
      some (⟨true, (cfg.maxAttempts : Int), iceilDiv cfg.windowMs 1000⟩, s) ∧
    (rateLimit ident success type now faults store).isSome = true := by
  have h1 : rateLimit ident success type now faults store =
      some (⟨true, (cfg.maxAttempts : Int), iceilDiv cfg.windowMs 1000⟩, s) := by
    unfold rateLimit
    rw [hcfg]
    simp only [herr]
  exact ⟨h1, by rw [h1]; rfl⟩

/-- Witness for C2: every store operation raises; the call still returns
the fail-open allow decision. -/
theorem storeFault_failOpen_witness :
    rateLimit uid true tAuth 0 allFaults [] = some (⟨true, 5, 900⟩, []) ∧
    (rateLimit uid true tAuth 0 allFaults []).isSome = true :=
  storeFault_failOpen tAuth ⟨900000, 5, 3600000⟩ (by decide) uid true 0 allFaults
    [] [] rfl

/-- C3: when the store holds a blocked = true record for the key of the call
with created_at ≥ now - block_duration_ms, the call is denied with
remaining = 0 and reset_time = max(ceil((T + block_duration_ms - now) /
1000), 0), T being the created_at of the most recent such record,
regardless of the success flag; the store is only garbage-collected, so
the reset-on-success deletion for the key does not happen. -/
theorem blockedRecord_denies (type : String) (cfg : RateLimitConfig)
    (hcfg : rateLimitConfigs type = some cfg) (ident : String) (success : Bool)
    (now T : Int) (store : List RLRecord)
    (hmem : ∃ r ∈ store,
      isBlockMatch (type ++ "_" ++ ident) now cfg.blockDurationMs r = true ∧
        r.created_at = T)
    (hub : ∀ r ∈ store,
      isBlockMatch (type ++ "_" ++ ident) now cfg.blockDurationMs r = true →
        r.created_at ≤ T) :
    rateLimit ident success type now noFaults store =
      some (⟨false, 0, max (iceilDiv (T + cfg.blockDurationMs - now) 1000) 0⟩,
            gcDelete now cfg.blockDurationMs store) :=
  rateLimit_blocked_eq type cfg hcfg ident success now T store hmem hub

/-- Witness for C3: a blocked record created at time 0, queried with
success = true at time 1000, still denies with reset_time 3599. -/
theorem blockedRecord_denies_witness :
    rateLimit uid true tAuth 1000 noFaults [⟨tAuth ++ "_" ++ uid, 5, true, 0⟩] =
      some (⟨false, 0, 3599⟩, [⟨tAuth ++ "_" ++ uid, 5, true, 0⟩]) :=
  blockedRecord_denies tAuth ⟨900000, 5, 3600000⟩ (by decide) uid true 1000 0
    [⟨tAuth ++ "_" ++ uid, 5, true, 0⟩]
    ⟨⟨tAuth ++ "_" ++ uid, 5, true, 0⟩, by decide⟩ (by decide)

/-- C5: the garbage-collection step at the start of every call deletes
exactly the stored records whose created_at is older than
now - block_duration_ms — for every identifier, not only the current
key of the current call — and leaves every other record untouched; the try block
factors as this step (with the block_duration_ms of the current type) followed
by the remaining work. -/
theorem gc_global_by_age (cfg : RateLimitConfig) (key : String) (success : Bool)
    (now bd : Int) (faults : Nat → Bool) (store : List RLRecord) (r : RLRecord) :
    (r ∈ gcDelete now bd store ↔ r ∈ store ∧ now - bd ≤ r.created_at) ∧
    tryBody cfg key success now faults store =
      (if faults 0 then Except.error store
       else afterGC cfg key success now faults
         (gcDelete now cfg.blockDurationMs store)) :=
  ⟨mem_gcDelete now bd store r, rfl⟩

/-- C8: the two public wrappers delegate exactly to the core function:
rateLimitAuth forwards its identifier, success and type (and when the
trailing optional arguments are omitted they default to success = true and
type = "auth"); rateLimitAPI always forwards type api_general.  Neither
wrapper adds or changes any behaviour. -/
theorem wrappers_delegate :
    (∀ (now : Int) (faults : Nat → Bool) (store : List RLRecord)
        (ident : String) (success : Bool) (type : String),
      rateLimitAuth now faults store ident success type =
        rateLimit ident success type now faults store) ∧
    (∀ (now : Int) (faults : Nat → Bool) (store : List RLRecord) (ident : String),
      rateLimitAuth now faults store ident =
        rateLimit ident true tAuth now faults store) ∧
    (∀ (now : Int) (faults : Nat → Bool) (store : List RLRecord)
        (ident : String) (success : Bool),
      rateLimitAPI now faults store ident success =
        rateLimit ident success tApiGeneral now faults store) ∧
    (∀ (now : Int) (faults : Nat → Bool) (store : List RLRecord) (ident : String),
      rateLimitAPI now faults store ident =
        rateLimit ident true tApiGeneral now faults store) :=
  ⟨fun _ _ _ _ _ _ => rfl, fun _ _ _ _ => rfl,
   fun _ _ _ _ _ => rfl, fun _ _ _ _ => rfl⟩

/-- C9: an unregistered type makes the core function propagate an error to
the caller: the undefined config is dereferenced before the try block, so
the fail-open catch never sees it and no allow result is produced. -/
theorem unknownType_propagates (type : String)
    (htype : rateLimitConfigs type = none) (ident : String) (success : Bool)
    (now : Int) (faults : Nat → Bool) (store : List RLRecord) :
    rateLimit ident success type now faults store = none := by
  unfold rateLimit
  rw [htype]

/-- Witness for C9 at a type absent from the config table. -/
theorem unknownType_propagates_witness :
    rateLimit uid true tBogus 0 noFaults [] = none :=
  unknownType_propagates tBogus (by decide) uid true 0 noFaults []

/-- C4: a success call on a key that is not currently blocked deletes every
blocked = false record for that key (the failure counter resets to zero)
and is allowed; consequently, for any registered type, the sequence fail,
fail, succeed, fail from an empty store ends with the last failing call
reporting remaining = max_attempts - 1, not max_attempts - 3. -/
theorem success_resets (type : String) (cfg : RateLimitConfig)
    (hcfg : rateLimitConfigs type = some cfg) (ident : String) (now : Int)
    (store : List RLRecord)
    (hnb : ∀ r ∈ store,
      isBlockMatch (type ++ "_" ++ ident) now cfg.blockDurationMs r = false) :
    rateLimit ident true type now noFaults store =
      some (⟨true,
             max 0 ((cfg.maxAttempts : Int) -
               countRecent (type ++ "_" ++ ident) (now - cfg.windowMs)
                 (gcDelete now cfg.blockDurationMs store)),
             iceilDiv cfg.windowMs 1000⟩,
            deleteNonBlocked (type ++ "_" ++ ident)
              (gcDelete now cfg.blockDurationMs store)) ∧
    runCalls ident type [(false, now), (false, now), (true, now), (false, now)] [] =
      some ([⟨true, (cfg.maxAttempts : Int) - 1, iceilDiv cfg.windowMs 1000⟩,
             ⟨true, (cfg.maxAttempts : Int) - 2, iceilDiv cfg.windowMs 1000⟩,
             ⟨true, (cfg.maxAttempts : Int) - 2, iceilDiv cfg.windowMs 1000⟩,
             ⟨true, (cfg.maxAttempts : Int) - 1, iceilDiv cfg.windowMs 1000⟩],
            [⟨type ++ "_" ++ ident, 1, false, now⟩]) := by
  obtain ⟨hw, hbd, hwb, hN⟩ := config_bounds type cfg hcfg
  have hNi : (3 : Int) ≤ (cfg.maxAttempts : Int) := by exact_mod_cast hN
  refine ⟨rateLimit_success_eq type cfg hcfg ident now store hnb, ?_⟩
  -- a failing call on the empty store
  have hcall1 := rateLimit_fail_eq type cfg hcfg ident now [] 0 rfl
    (by intro r hr; cases hr) rfl
  rw [if_neg (by omega)] at hcall1
  have hm1 : max 0 ((cfg.maxAttempts : Int) - (((0 : Nat) : Int) + 1)) =
      (cfg.maxAttempts : Int) - 1 := by
    rw [max_eq_right] <;> push_cast <;> omega
  rw [hm1] at hcall1
  simp only [Nat.zero_add, List.nil_append] at hcall1
  -- a second failing call, on the singleton store
  have hgc2 : gcDelete now cfg.blockDurationMs
      [⟨type ++ "_" ++ ident, 1, false, now⟩] =
      [⟨type ++ "_" ++ ident, 1, false, now⟩] := by
    apply gcDelete_eq_self
    intro r hr
    simp only [List.mem_singleton] at hr
    subst hr
    show now - cfg.blockDurationMs ≤ now
    omega
  have hnb2 : ∀ r ∈ [(⟨type ++ "_" ++ ident, 1, false, now⟩ : RLRecord)],
      isBlockMatch (type ++ "_" ++ ident) now cfg.blockDurationMs r = false := by
    intro r hr
    simp only [List.mem_singleton] at hr
    subst hr
    unfold isBlockMatch
    simp
  have hcm : ∀ c : Nat, isCountMatch (type ++ "_" ++ ident) (now - cfg.windowMs)
      ⟨type ++ "_" ++ ident, c, false, now⟩ = true := by
    intro c
    unfold isCountMatch
    simp only [beq_self_eq_true, Bool.not_false, Bool.true_and, decide_eq_true_eq]
    omega
  have hc2 : countRecent (type ++ "_" ++ ident) (now - cfg.windowMs)
      [⟨type ++ "_" ++ ident, 1, false, now⟩] = 1 := by
    unfold countRecent
    simp [List.filter_cons, hcm 1]
  have hcall2 := rateLimit_fail_eq type cfg hcfg ident now
    [⟨type ++ "_" ++ ident, 1, false, now⟩] 1 hgc2 hnb2 hc2
  rw [if_neg (by omega)] at hcall2
  have hm2 : max 0 ((cfg.maxAttempts : Int) - (((1 : Nat) : Int) + 1)) =
      (cfg.maxAttempts : Int) - 2 := by
    rw [max_eq_right] <;> push_cast <;> omega
  rw [hm2] at hcall2
  simp only [List.cons_append, List.nil_append] at hcall2
  -- the success call on the two-record store
  have hgc3 : gcDelete now cfg.blockDurationMs
      [⟨type ++ "_" ++ ident, 1, false, now⟩, ⟨type ++ "_" ++ ident, 2, false, now⟩] =
      [⟨type ++ "_" ++ ident, 1, false, now⟩, ⟨type ++ "_" ++ ident, 2, false, now⟩] := by
    apply gcDelete_eq_self
    intro r hr
    simp only [List.mem_cons, List.mem_singleton] at hr
    rcases hr with hr | hr | hr
    · subst hr
      show now - cfg.blockDurationMs ≤ now
      omega
    · subst hr
      show now - cfg.blockDurationMs ≤ now
      omega
    · cases hr
  have hnb3 : ∀ r ∈ [(⟨type ++ "_" ++ ident, 1, false, now⟩ : RLRecord),
      ⟨type ++ "_" ++ ident, 2, false, now⟩],
      isBlockMatch (type ++ "_" ++ ident) now cfg.blockDurationMs r = false := by
    intro r hr
    simp only [List.mem_cons, List.mem_singleton] at hr
    rcases hr with hr | hr | hr
    · subst hr
      unfold isBlockMatch
      simp
    · subst hr
      unfold isBlockMatch
      simp
    · cases hr
  have hc3 : countRecent (type ++ "_" ++ ident) (now - cfg.windowMs)
      [⟨type ++ "_" ++ ident, 1, false, now⟩, ⟨type ++ "_" ++ ident, 2, false, now⟩] = 2 := by
    unfold countRecent
    simp [List.filter_cons, hcm 1, hcm 2]
  have hdel3 : deleteNonBlocked (type ++ "_" ++ ident)
      [⟨type ++ "_" ++ ident, 1, false, now⟩, ⟨type ++ "_" ++ ident, 2, false, now⟩] =
      [] := by
    unfold deleteNonBlocked
    apply List.filter_eq_nil_iff.mpr
    intro r hr
    simp only [List.mem_cons, List.mem_singleton] at hr
    rcases hr with hr | hr | hr
    · subst hr
      simp
    · subst hr
      simp
    · cases hr
  have hcall3 := rateLimit_success_eq type cfg hcfg ident now
    [⟨type ++ "_" ++ ident, 1, false, now⟩, ⟨type ++ "_" ++ ident, 2, false, now⟩] hnb3
  rw [hgc3, hc3, hdel3] at hcall3
  have hm3 : max 0 ((cfg.maxAttempts : Int) - ((2 : Nat) : Int)) =
      (cfg.maxAttempts : Int) - 2 := by
    rw [max_eq_right] <;> push_cast <;> omega
  rw [hm3] at hcall3
  -- chain the four calls
  have hs4 := runCalls_cons_eq ident type false now [] _ _ _ _ _ hcall1 rfl
  have hs3 := runCalls_cons_eq ident type true now [(false, now)] _ _ _ _ _ hcall3 hs4
  have hs2 := runCalls_cons_eq ident type false now [(true, now), (false, now)]
    _ _ _ _ _ hcall2 hs3
  have hs1 := runCalls_cons_eq ident type false now
    [(false, now), (true, now), (false, now)] _ _ _ _ _ hcall1 hs2
  exact hs1

/-- Witness for C4: auth type, empty store, all calls at time 0; the
fourth call (fail after fail, fail, succeed) reports remaining = 4. -/
theorem success_resets_witness :
    rateLimit uid true tAuth 0 noFaults [] = some (⟨true, 5, 900⟩, []) ∧
    runCalls uid tAuth [(false, 0), (false, 0), (true, 0), (false, 0)] [] =
      some ([⟨true, 4, 900⟩, ⟨true, 3, 900⟩, ⟨true, 3, 900⟩, ⟨true, 4, 900⟩],
        [⟨tAuth ++ "_" ++ uid, 1, false, 0⟩]) :=
  success_resets tAuth ⟨900000, 5, 3600000⟩ (by decide) uid 0 []
    (by intro r hr; cases hr)

/-- C6: the call that creates a block returns reset_time =
ceil(block_duration_ms / 1000); afterwards, two calls decided by the same
blocked record (most recent matching created_at T), the second no earlier
than the first, return reset_time values that do not increase and are
clamped to at least 0. -/
theorem blockReset_monotone (type : String) (cfg : RateLimitConfig)
    (hcfg : rateLimitConfigs type = some cfg) (ident : String)
    (now : Int) (store : List RLRecord) (c : Nat)
    (hgc : gcDelete now cfg.blockDurationMs store = store)
    (hnb : ∀ r ∈ store,
      isBlockMatch (type ++ "_" ++ ident) now cfg.blockDurationMs r = false)
    (hc : countRecent (type ++ "_" ++ ident) (now - cfg.windowMs) store = c)
    (hth : cfg.maxAttempts ≤ c + 1)
    (s1 s2 : Bool) (now1 now2 T : Int) (store' : List RLRecord)
    (h12 : now1 ≤ now2)
    (hmem : ∃ r ∈ store',
      isBlockMatch (type ++ "_" ++ ident) now2 cfg.blockDurationMs r = true ∧
        r.created_at = T)
    (hub : ∀ r ∈ store',
      isBlockMatch (type ++ "_" ++ ident) now2 cfg.blockDurationMs r = true →
        r.created_at ≤ T) :
    rateLimit ident false type now noFaults store =
      some (⟨false, 0, iceilDiv cfg.blockDurationMs 1000⟩,
        store ++ [⟨type ++ "_" ++ ident, c + 1, false, now⟩,
                  ⟨type ++ "_" ++ ident, c + 1, true, now⟩]) ∧
    rateLimit ident s1 type now1 noFaults store' =
      some (⟨false, 0, max (iceilDiv (T + cfg.blockDurationMs - now1) 1000) 0⟩,
        gcDelete now1 cfg.blockDurationMs store') ∧
    rateLimit ident s2 type now2 noFaults (gcDelete now1 cfg.blockDurationMs store') =
      some (⟨false, 0, max (iceilDiv (T + cfg.blockDurationMs - now2) 1000) 0⟩,
        gcDelete now2 cfg.blockDurationMs (gcDelete now1 cfg.blockDurationMs store')) ∧
    max (iceilDiv (T + cfg.blockDurationMs - now2) 1000) 0 ≤
      max (iceilDiv (T + cfg.blockDurationMs - now1) 1000) 0 ∧
    0 ≤ max (iceilDiv (T + cfg.blockDurationMs - now2) 1000) 0 := by
  obtain ⟨r0, hr0s, hr0m, hr0T⟩ := hmem
  have hmatch : ∀ (nw : Int) (r : RLRecord),
      isBlockMatch (type ++ "_" ++ ident) nw cfg.blockDurationMs r = true ↔
        (r.identifier = type ++ "_" ++ ident ∧ r.blocked = true ∧
          nw - cfg.blockDurationMs ≤ r.created_at) := by
    intro nw r
    unfold isBlockMatch
    simp [and_assoc]
  have hr0 := (hmatch now2 r0).mp hr0m
  have hT2 : now2 - cfg.blockDurationMs ≤ T := hr0T ▸ hr0.2.2
  -- the same record decides the call at the earlier time now1
  have hr0m1 : isBlockMatch (type ++ "_" ++ ident) now1 cfg.blockDurationMs r0 = true :=
    (hmatch now1 r0).mpr ⟨hr0.1, hr0.2.1, by omega⟩
  have hub1 : ∀ r ∈ store',
      isBlockMatch (type ++ "_" ++ ident) now1 cfg.blockDurationMs r = true →
        r.created_at ≤ T := by
    intro r hr hm
    obtain ⟨ha, hb, hcx⟩ := (hmatch now1 r).mp hm
    by_cases h2 : now2 - cfg.blockDurationMs ≤ r.created_at
    · exact hub r hr ((hmatch now2 r).mpr ⟨ha, hb, h2⟩)
    · omega
  have hpart2 := rateLimit_blocked_eq type cfg hcfg ident s1 now1 T store'
    ⟨r0, hr0s, hr0m1, hr0T⟩ hub1
  -- the record survives the garbage collection of the first blocked call
  have hr0s2 : r0 ∈ gcDelete now1 cfg.blockDurationMs store' :=
    (mem_gcDelete now1 cfg.blockDurationMs store' r0).mpr
      ⟨hr0s, by rw [hr0T]; omega⟩
  have hub2 : ∀ r ∈ gcDelete now1 cfg.blockDurationMs store',
      isBlockMatch (type ++ "_" ++ ident) now2 cfg.blockDurationMs r = true →
        r.created_at ≤ T := by
    intro r hr hm
    exact hub r ((mem_gcDelete now1 cfg.blockDurationMs store' r).mp hr).1 hm
  have hpart3 := rateLimit_blocked_eq type cfg hcfg ident s2 now2 T
    (gcDelete now1 cfg.blockDurationMs store') ⟨r0, hr0s2, hr0m, hr0T⟩ hub2
  have hpart1 := rateLimit_fail_eq type cfg hcfg ident now store c hgc hnb hc
  rw [if_pos hth] at hpart1
  refine ⟨hpart1, hpart2, hpart3, ?_, le_max_right _ _⟩
  exact max_le_max (iceilDiv_mono _ _ 1000 (by omega) (by omega)) (le_refl 0)

/-- Witness for C6: four prior failures at time 0, the fifth failing auth
call at time 0 creates the block with reset_time 3600; at times 1000 and
2000 the blocked record of created_at 0 yields reset_time 3599 then 3598. -/
theorem blockReset_monotone_witness :
    rateLimit uid false tAuth 0 noFaults
        [⟨tAuth ++ "_" ++ uid, 1, false, 0⟩, ⟨tAuth ++ "_" ++ uid, 2, false, 0⟩,
         ⟨tAuth ++ "_" ++ uid, 3, false, 0⟩, ⟨tAuth ++ "_" ++ uid, 4, false, 0⟩] =
      some (⟨false, 0, 3600⟩,
        [⟨tAuth ++ "_" ++ uid, 1, false, 0⟩, ⟨tAuth ++ "_" ++ uid, 2, false, 0⟩,
         ⟨tAuth ++ "_" ++ uid, 3, false, 0⟩, ⟨tAuth ++ "_" ++ uid, 4, false, 0⟩,
         ⟨tAuth ++ "_" ++ uid, 5, false, 0⟩, ⟨tAuth ++ "_" ++ uid, 5, true, 0⟩]) ∧
    rateLimit uid true tAuth 1000 noFaults [⟨tAuth ++ "_" ++ uid, 5, true, 0⟩] =
      some (⟨false, 0, 3599⟩, [⟨tAuth ++ "_" ++ uid, 5, true, 0⟩]) ∧
    rateLimit uid false tAuth 2000 noFaults
        (gcDelete 1000 3600000 [⟨tAuth ++ "_" ++ uid, 5, true, 0⟩]) =
      some (⟨false, 0, 3598⟩,
        gcDelete 2000 3600000 (gcDelete 1000 3600000 [⟨tAuth ++ "_" ++ uid, 5, true, 0⟩])) ∧
    (3598 : Int) ≤ 3599 ∧ (0 : Int) ≤ 3598 :=
  blockReset_monotone tAuth ⟨900000, 5, 3600000⟩ (by decide) uid 0
    [⟨tAuth ++ "_" ++ uid, 1, false, 0⟩, ⟨tAuth ++ "_" ++ uid, 2, false, 0⟩,
     ⟨tAuth ++ "_" ++ uid, 3, false, 0⟩, ⟨tAuth ++ "_" ++ uid, 4, false, 0⟩] 4
    (by decide) (by decide) (by decide) (by decide) true false 1000 2000 0
    [⟨tAuth ++ "_" ++ uid, 5, true, 0⟩] (by decide)
    ⟨⟨tAuth ++ "_" ++ uid, 5, true, 0⟩, by decide⟩ (by decide)

/-- C7 counterexample: success = true with no records at all for the key
is not a no-op on the stored state — the garbage-collection step removes
an expired record of a different identifier, so the state changes. -/
theorem success_noop_counterexample :
    rateLimit uid true tAuth 0 noFaults [⟨uid, 1, false, -4000000⟩] =
      some (⟨true, 5, 900⟩, []) ∧
    ([] : List RLRecord) ≠ [⟨uid, 1, false, -4000000⟩] := by
  exact ⟨by decide, by decide⟩

/-- C7 amended: a success call when the key has no stored records returns
{allowed: true, remaining: max_attempts, reset_time: ceil(window_ms/1000)}
and changes the stored state only by the garbage-collection step; in
particular it is a true no-op when no stored record of any identifier is
older than now - block_duration_ms. -/
theorem success_noop_gc (type : String) (cfg : RateLimitConfig)
    (hcfg : rateLimitConfigs type = some cfg) (ident : String) (now : Int)
    (store : List RLRecord)
    (hkey : ∀ r ∈ store, r.identifier ≠ type ++ "_" ++ ident) :
    rateLimit ident true type now noFaults store =
      some (⟨true, (cfg.maxAttempts : Int), iceilDiv cfg.windowMs 1000⟩,
            gcDelete now cfg.blockDurationMs store) := by
  have hnb : ∀ r ∈ store,
      isBlockMatch (type ++ "_" ++ ident) now cfg.blockDurationMs r = false := by
    intro r hr
    unfold isBlockMatch
    simp [hkey r hr]
  have h := rateLimit_success_eq type cfg hcfg ident now store hnb
  have hcount : countRecent (type ++ "_" ++ ident) (now - cfg.windowMs)
      (gcDelete now cfg.blockDurationMs store) = 0 := by
    unfold countRecent
    rw [List.length_eq_zero]
    apply List.filter_eq_nil_iff.mpr
    intro r hr
    have hne := hkey r ((mem_gcDelete now cfg.blockDurationMs store r).mp hr).1
    unfold isCountMatch
    simp [hne]
  have hdel : deleteNonBlocked (type ++ "_" ++ ident)
      (gcDelete now cfg.blockDurationMs store) =
      gcDelete now cfg.blockDurationMs store := by
    apply deleteNonBlocked_eq_self
    intro r hr
    exact hkey r ((mem_gcDelete now cfg.blockDurationMs store r).mp hr).1
  rw [h, hcount, hdel]
  have hmax : max 0 ((cfg.maxAttempts : Int) - ((0 : Nat) : Int)) =
      (cfg.maxAttempts : Int) := by
    rw [max_eq_right] <;> push_cast <;> omega
  rw [hmax]

/-- Witness for C7 amended: a fresh foreign record survives and the state
is unchanged. -/
theorem success_noop_gc_witness :
    rateLimit uid true tAuth 0 noFaults [⟨uid, 1, false, 0⟩] =
      some (⟨true, 5, 900⟩, [⟨uid, 1, false, 0⟩]) :=
  success_noop_gc tAuth ⟨900000, 5, 3600000⟩ (by decide) uid 0
    [⟨uid, 1, false, 0⟩] (by decide)

lemma afterGC_ok_nonneg (cfg : RateLimitConfig) (key : String) (success : Bool)
    (now : Int) (faults : Nat → Bool) (s1 : List RLRecord)
    (hw : 0 < cfg.windowMs) (hbd : 0 < cfg.blockDurationMs)
    (res : RateLimitResult) (s2 : List RLRecord)
    (h : afterGC cfg key success now faults s1 = Except.ok (res, s2)) :
    0 ≤ res.remaining ∧ 0 ≤ res.resetTime := by
  have hwr : (0 : Int) ≤ iceilDiv cfg.windowMs 1000 :=
    iceilDiv_nonneg cfg.windowMs 1000 (by omega) (by omega)
  have hbr : (0 : Int) ≤ iceilDiv cfg.blockDurationMs 1000 :=
    iceilDiv_nonneg cfg.blockDurationMs 1000 (by omega) (by omega)
  unfold afterGC at h
  by_cases h1 : faults 1 = true
  · rw [if_pos h1] at h
    cases h
  · rw [if_neg h1] at h
    cases hfb : findBlockTime key now cfg.blockDurationMs s1 with
    | some t =>
        rw [hfb] at h
        simp only [Except.ok.injEq, Prod.mk.injEq] at h
        obtain ⟨hres, _⟩ := h
        rw [← hres]
        exact ⟨le_refl 0, le_max_right _ 0⟩
    | none =>
        rw [hfb] at h
        by_cases h2 : faults 2 = true
        · rw [if_pos h2] at h
          cases h
        · rw [if_neg h2] at h
          cases success with
          | true =>
              simp only [if_true] at h
              by_cases h5 : faults 5 = true
              · rw [if_pos h5] at h
                cases h
              · rw [if_neg h5] at h
                simp only [Except.ok.injEq, Prod.mk.injEq] at h
                obtain ⟨hres, _⟩ := h
                rw [← hres]
                exact ⟨le_max_left 0 _, hwr⟩
          | false =>
              simp only [Bool.false_eq_true, if_false] at h
              by_cases h3 : faults 3 = true
              · rw [if_pos h3] at h
                cases h
              · rw [if_neg h3] at h
                by_cases hth : cfg.maxAttempts ≤
                    countRecent key (now - cfg.windowMs) s1 + 1
                · rw [if_pos hth] at h
                  by_cases h4 : faults 4 = true
                  · rw [if_pos h4] at h
                    cases h
                  · rw [if_neg h4] at h
                    simp only [Except.ok.injEq, Prod.mk.injEq] at h
                    obtain ⟨hres, _⟩ := h
                    rw [← hres]
                    exact ⟨le_refl 0, hbr⟩
                · rw [if_neg hth] at h
                  simp only [Except.ok.injEq, Prod.mk.injEq] at h
                  obtain ⟨hres, _⟩ := h
                  rw [← hres]
                  exact ⟨le_max_left 0 _, hwr⟩

/-- C10: for a registered type, every result the call actually returns —
on the blocked path, the newly-blocking path, the allow path or the
fail-open path — satisfies remaining ≥ 0 and resetTime ≥ 0. -/
theorem result_nonneg (type : String) (cfg : RateLimitConfig)
    (hcfg : rateLimitConfigs type = some cfg) (ident : String) (success : Bool)
    (now : Int) (faults : Nat → Bool) (store : List RLRecord)
    (res : RateLimitResult) (store' : List RLRecord)
    (h : rateLimit ident success type now faults store = some (res, store')) :
    0 ≤ res.remaining ∧ 0 ≤ res.resetTime := by
  obtain ⟨hw, hbd, hwb, hN⟩ := config_bounds type cfg hcfg
  unfold rateLimit at h
  rw [hcfg] at h
  cases htb : tryBody cfg (type ++ "_" ++ ident) success now faults store with
  | error s =>
      simp only [htb, Option.some.injEq, Prod.mk.injEq] at h
      obtain ⟨hres, _⟩ := h
      rw [← hres]
      refine ⟨by positivity, ?_⟩
      exact iceilDiv_nonneg cfg.windowMs 1000 (by omega) (by omega)
  | ok p =>
      simp only [htb, Option.some.injEq] at h
      unfold tryBody at htb
      by_cases h0 : faults 0 = true
      · rw [if_pos h0] at htb
        cases htb
      · rw [if_neg h0] at htb
        rw [h] at htb
        exact afterGC_ok_nonneg cfg (type ++ "_" ++ ident) success now faults
          (gcDelete now cfg.blockDurationMs store) hw hbd res store' htb

/-- Witness for C10 on an ordinary allowed failing call. -/
theorem result_nonneg_witness :
    (0 : Int) ≤ (⟨true, 4, 900⟩ : RateLimitResult).remaining ∧
    (0 : Int) ≤ (⟨true, 4, 900⟩ : RateLimitResult).resetTime :=
  result_nonneg tAuth ⟨900000, 5, 3600000⟩ (by decide) uid false 0 noFaults []
    ⟨true, 4, 900⟩ [⟨tAuth ++ "_" ++ uid, 1, false, 0⟩] (by decide)
